import Mathlib

/-
  Verification development for the IEF_LSP workspace core
  (src/workspace.rs, src/workspace/sync.rs, src/workspace/queries.rs).

  The Rust source is shallowly embedded: text is a String, byte offsets are
  Nat counted in UTF-8 bytes, the tree-sitter capability (trees, query
  matches, incremental reparse) is an external collaborator and is modelled
  by an explicit match-list tree type plus function parameters for the
  parse and tree-edit primitives.
-/

namespace IEFLSP

/-- Split a character list at every line feed, keeping empty pieces. -/
def splitLinesAux : List Char → List Char → List (List Char)
  | [], acc => [acc.reverse]
  | c :: cs, acc =>
    if c = '\n' then acc.reverse :: splitLinesAux cs []
    else splitLinesAux cs (c :: acc)

/-- Strip one trailing carriage return from a line. -/
def stripCRChars (l : List Char) : List Char :=
  match l.getLast? with
  | some c => if c = '\r' then l.dropLast else l
  | none => l

/-- Model of Rust str::lines: split on a line feed, an optional final line
ending produces no trailing empty line, and a trailing carriage return is
stripped from each line. -/
def rustLines (s : String) : List String :=
  if s.data.isEmpty then []
  else
    let parts := splitLinesAux s.data []
    let parts := if parts.getLast? = some [] then parts.dropLast else parts
    parts.map (fun l => String.mk (stripCRChars l))

/-- Take the longest prefix of the character list whose total UTF-8 size
fits in the given byte budget; stands for Rust slicing at a byte index. -/
def takeBytes : List Char → Nat → List Char
  | [], _ => []
  | c :: cs, n => if c.utf8Size ≤ n ∧ 0 < n then c :: takeBytes cs (n - c.utf8Size) else []

/-- Drop the prefix of the character list covering the given byte count;
stands for Rust slicing at a byte index. -/
def dropBytes : List Char → Nat → List Char
  | [], _ => []
  | c :: cs, n => if c.utf8Size ≤ n ∧ 0 < n then dropBytes cs (n - c.utf8Size) else c :: cs

/-- Embeds delete_range of src/workspace/sync.rs: keep the bytes before
start_byte, then the bytes from end_byte on. -/
def delete_range (txt : String) (start_byte end_byte : Nat) : String :=
  String.mk (takeBytes txt.data start_byte ++
    dropBytes (dropBytes txt.data start_byte) (end_byte - start_byte))

/-- Embeds insert_text of src/workspace/sync.rs: splice the replacement in
at the given byte index, keeping both sides of the old text. -/
def insert_text (txt : String) (range : String) (byte : Nat) : String :=
  String.mk (takeBytes txt.data byte ++ range.data ++ dropBytes txt.data byte)

/-- Embeds lsp_types Position with line and character as Nat. -/
structure Position where
  line : Nat
  character : Nat
deriving Repr, DecidableEq

/-- Embeds lsp_types Range. -/
structure Range where
  start : Position
  «end» : Position
deriving Repr, DecidableEq

/-- Embeds lsp_types TextEdit. -/
structure TextEdit where
  range : Range
  new_text : String
deriving Repr, DecidableEq

/-- Embeds the TextSync struct of src/workspace/sync.rs. -/
structure TextSync where
  raw_text : String
deriving Repr, DecidableEq

/-- Auxiliary loop of byte_pos: walk the enumerated lines, stopping with
the character count at the requested line, otherwise accumulating line
byte length plus one for the line feed. -/
def bytePosAux (line character : Nat) : Nat → List String → Nat
  | _, [] => 0
  | i, l :: ls =>
    if i = line then character
    else l.utf8ByteSize + 1 + bytePosAux line character (i + 1) ls

/-- Embeds TextSync::byte_pos of src/workspace/sync.rs. When the requested
line is beyond the last line the loop simply runs off the end and the
accumulated count is returned; the function is total and never fails. -/
def TextSync.byte_pos (t : TextSync) (line character : Nat) : Nat :=
  bytePosAux line character 0 (rustLines t.raw_text)

/-- Embeds TextSync::lines of src/workspace/sync.rs. -/
def TextSync.lines (t : TextSync) : Nat :=
  (rustLines t.raw_text).length

/-- Embeds TextSync::edit of src/workspace/sync.rs: an empty replacement
deletes the byte span, any other replacement is passed to insert_text at
the start byte. -/
def TextSync.edit (t : TextSync) (edit : TextEdit) : TextSync :=
  let start_byte := t.byte_pos edit.range.start.line edit.range.start.character
  let end_byte := t.byte_pos edit.range.«end».line edit.range.«end».character
  if edit.new_text = "" then
    ⟨delete_range t.raw_text start_byte end_byte⟩
  else
    ⟨insert_text t.raw_text edit.new_text start_byte⟩

/-- Modelled from the spec: apply replaces the byte span from start_byte to
end_byte with the replacement, uniformly for deletions, insertions and
replacements. -/
def spec_apply (txt : String) (start_byte end_byte : Nat) (replacement : String) : String :=
  String.mk (takeBytes txt.data start_byte ++ replacement.data ++ dropBytes txt.data end_byte)

/-- Models a tree-sitter node as the query layer observes it: its start
position (row, column) and the result of utf8_text, none standing for a
decode failure. -/
structure TSNode where
  startRow : Nat
  startCol : Nat
  utf8_text : Option String
deriving Repr, DecidableEq

/-- Models one tree-sitter query match: the list of captured nodes. -/
structure QMatch where
  captures : List TSNode
deriving Repr, DecidableEq

/-- Models the external tree-sitter tree through the only facet the
embedded code consumes: the match lists that the cursor produces for the
base-policy pattern and for the identifier pattern. -/
structure Tree where
  basePolicyMatches : List QMatch
  idMatches : List QMatch
deriving Repr, DecidableEq

/-- Models Rust String::replace with an empty replacement of the double
quote character, as applied to every captured text. -/
def removeQuotes (s : String) : String :=
  String.mk (s.data.filter (fun c => c ≠ '"'))

/-- Embeds get_range of src/workspace/queries.rs: both the start and the
end of the produced Range are taken from the start position of the node. -/
def get_range (node : TSNode) : Range :=
  { start := ⟨node.startRow, node.startCol⟩
    «end» := ⟨node.startRow, node.startCol⟩ }

/-- Embeds the IEFQueryMatch struct of src/workspace/queries.rs. -/
structure IEFQueryMatch where
  txt : String
  range : Range
deriving Repr, DecidableEq

/-- Embeds IEFQuery::first of src/workspace/queries.rs, applied to the
match list the cursor yields for the pattern: keep the last capture of
each match, drop captures whose text does not decode, and return the
first element of what is left. -/
def IEFQuery.first (ms : List QMatch) : Option IEFQueryMatch :=
  ((ms.filterMap (fun m => m.captures.getLast?)).filterMap
    (fun c =>
      match c.utf8_text with
      | some s => some ⟨removeQuotes s, get_range c⟩
      | none => none)).head?

/-- Embeds base_policy_query of src/workspace.rs: last capture of each
match, keep decodable texts, strip quotes, and take the last one. -/
def base_policy_query (tree : Tree) : Option String :=
  (((tree.basePolicyMatches.filterMap (fun m => m.captures.getLast?)).filterMap
    (fun c => c.utf8_text)).map removeQuotes).getLast?

/-- Embeds base_policy_query_range of src/workspace.rs: last capture of
each match, build a Range whose start and end both come from the start
position of the node, and take the last one. -/
def base_policy_query_range (tree : Tree) : Option Range :=
  ((tree.basePolicyMatches.filterMap (fun m => m.captures.getLast?)).map
    (fun node =>
      ({ start := ⟨node.startRow, node.startCol⟩
         «end» := ⟨node.startRow, node.startCol⟩ } : Range))).getLast?

/-- Embeds id_query of src/workspace.rs: same shape as base_policy_query
but over the identifier pattern matches. -/
def id_query (tree : Tree) : Option String :=
  (((tree.idMatches.filterMap (fun m => m.captures.getLast?)).filterMap
    (fun c => c.utf8_text)).map removeQuotes).getLast?

/-- Embeds the IEF_Policy struct of src/workspace.rs: the text buffer, the
tree, the extracted identifier and the optional base reference. -/
structure IEF_Policy where
  text : TextSync
  tree : Tree
  id : String
  base_id : Option String
deriving Repr, DecidableEq

/-- Embeds IEF_Policy::new of src/workspace.rs. The filesystem read and
the parser are external capabilities: file_text is the result of
fs::read_to_string and parse stands for Parser::parse. A missing file or
a failed parse yields none; a missing identifier is stored as the empty
string; base_id comes from the base-policy query. -/
def IEF_Policy.new (parse : String → Option Tree → Option Tree)
    (file_text : Option String) : Option IEF_Policy :=
  match file_text with
  | none => none
  | some txt =>
    let text := TextSync.mk txt
    match parse text.raw_text none with
    | none => none
    | some tree =>
      some { text := text
             tree := tree
             id := (id_query tree).getD ""
             base_id := base_policy_query tree }

/-- Embeds the UpdateDocError struct of src/workspace.rs. -/
structure UpdateDocError where
  msg : String
deriving Repr, DecidableEq

/-- Embeds tree_sitter Point. -/
structure Point where
  row : Nat
  column : Nat
deriving Repr, DecidableEq

/-- Embeds tree_sitter InputEdit. -/
structure InputEdit where
  start_byte : Nat
  start_position : Point
  old_end_byte : Nat
  old_end_position : Point
  new_end_byte : Nat
  new_end_position : Point
deriving Repr, DecidableEq

/-- Embeds the IEF_Workspace struct of src/workspace.rs: the policy map as
an association list from path to policy, and the parser capability. -/
structure IEF_Workspace where
  policies : List (String × IEF_Policy)
  parser : String → Option Tree → Option Tree

/-- Embeds IEF_Workspace::find_policy_by_id of src/workspace.rs: linear
scan of the policy values for an exact identifier match. -/
def IEF_Workspace.find_policy_by_id (w : IEF_Workspace) (id : String) : Option IEF_Policy :=
  (w.policies.map Prod.snd).find? (fun p => p.id == id)

/-- Tree-edit delta computation factored verbatim out of
IEF_Workspace::handle_edit of src/workspace.rs: the InputEdit handed to
Tree::edit, computed against the pre-edit text buffer. -/
def handle_edit_delta (text : TextSync) (edit : TextEdit) : InputEdit :=
  let start_line := edit.range.start.line
  let start_char := edit.range.start.character
  let end_line := edit.range.«end».line
  let end_char := edit.range.«end».character
  if edit.new_text = "" then
    { start_byte := text.byte_pos start_line start_char
      start_position := ⟨start_line, start_char⟩
      old_end_byte := text.byte_pos end_line end_char
      old_end_position := ⟨end_line, end_char⟩
      new_end_byte := text.byte_pos start_line start_char
      new_end_position := ⟨start_line, start_char⟩ }
  else
    let new_lines := (rustLines edit.new_text).length
    let new_chars0 := (((rustLines edit.new_text).getLast?).getD "").utf8ByteSize
    let new_chars := if new_lines = 0 then new_chars0 + start_char else new_chars0
    let new_bytes := edit.new_text.utf8ByteSize
    { start_byte := text.byte_pos start_line start_char
      start_position := ⟨start_line, start_char⟩
      old_end_byte := text.byte_pos end_line end_char
      old_end_position := ⟨end_line, end_char⟩
      new_end_byte := text.byte_pos (start_line + new_lines) new_chars + new_bytes
      new_end_position := ⟨start_line + new_lines, new_chars⟩ }

/-- Modelled from the spec: for an insertion the new end line is the start
line plus the number of line breaks contained in the inserted text. -/
def spec_new_end_line (start : Position) (new_text : String) : Nat :=
  start.line + (new_text.data.filter (fun c => c = '\n')).length

/-- Embeds IEF_Workspace::handle_edit of src/workspace.rs. The tree-edit
primitive Tree::edit is the external capability treeEdit. Looks the policy
up by path, reporting a document-not-found error when absent; otherwise
informs the tree of the delta, applies the text edit, reparses with the
edited tree as fallback, and stores text and tree back. The id and
base_id fields are carried over unchanged, exactly as in the source. -/
def IEF_Workspace.handle_edit (treeEdit : Tree → InputEdit → Tree)
    (w : IEF_Workspace) (path : String) (edit : TextEdit) :
    IEF_Workspace × Except UpdateDocError Unit :=
  match w.policies.find? (fun kv => kv.1 == path) with
  | none => (w, Except.error ⟨"Document not found"⟩)
  | some (_, policy) =>
    let delta := handle_edit_delta policy.text edit
    let tree1 := treeEdit policy.tree delta
    let text1 := policy.text.edit edit
    let tree2 := (w.parser text1.raw_text (some tree1)).getD tree1
    let policy1 : IEF_Policy :=
      { text := text1, tree := tree2, id := policy.id, base_id := policy.base_id }
    ({ w with policies := w.policies.map (fun kv => if kv.1 == path then (kv.1, policy1) else kv) },
      Except.ok ())

/-- Embeds lsp_types TextDocumentContentChangeEvent. -/
structure TextDocumentContentChangeEvent where
  range : Option Range
  text : String
deriving Repr, DecidableEq

/-- Embeds IEF_Workspace::update_document of src/workspace.rs: converts
the change events with a range into TextEdits, applies each through
handle_edit discarding its result, and returns success unconditionally;
the error type stands for std::io::Error. -/
def IEF_Workspace.update_document (treeEdit : Tree → InputEdit → Tree)
    (w : IEF_Workspace) (document : String)
    (changes : List TextDocumentContentChangeEvent) :
    IEF_Workspace × Except String Unit :=
  let edits : List TextEdit := changes.filterMap (fun change =>
    match change.range with
    | some range => some { range := range, new_text := change.text }
    | none => none)
  (edits.foldl (fun acc edit => (IEF_Workspace.handle_edit treeEdit acc document edit).1) w,
    Except.ok ())

/-- Embeds lsp_types DiagnosticSeverity restricted to the one value the
source constructs. -/
inductive DiagnosticSeverity where
  | ERROR
deriving Repr, DecidableEq

/-- Embeds lsp_types Diagnostic restricted to the fields the source sets
to something other than None. -/
structure Diagnostic where
  range : Range
  severity : Option DiagnosticSeverity
  source : Option String
  message : String
deriving Repr, DecidableEq

/-- Embeds to_uri of src/workspace.rs. -/
def to_uri (path : String) : String :=
  "file://" ++ path

/-- Embeds IEF_Workspace::get_diagnostics of src/workspace.rs: for each
policy with a base_id that no tracked policy declares, re-run the
base-policy range query against its current tree; when that yields a
range, emit one Error diagnostic there, otherwise nothing. -/
def IEF_Workspace.get_diagnostics (w : IEF_Workspace) : List (String × List Diagnostic) :=
  w.policies.filterMap (fun kv =>
    match kv.2.base_id with
    | none => none
    | some base_id =>
      match w.find_policy_by_id base_id with
      | some _ => none
      | none =>
        match base_policy_query_range kv.2.tree with
        | none => none
        | some range =>
          some (to_uri kv.1,
            [{ range := range
               severity := some DiagnosticSeverity.ERROR
               source := some "IEF_LSP"
               message := "Policy with ID " ++ base_id ++ " does not exist!" }]))

/-! Concrete instances used by the counterexamples and witnesses. -/

/-- Tree with no matches for either pattern. -/
def emptyTree : Tree := ⟨[], []⟩

/-- Tree-edit capability that leaves the tree unchanged. -/
def idTreeEdit : Tree → InputEdit → Tree := fun t _ => t

/-- Tree whose identifier pattern has one match whose last capture holds
the quoted attribute value A. -/
def treeIdA : Tree := ⟨[], [⟨[⟨0, 15, some "\"A\""⟩]⟩]⟩

/-- Workspace for the fact-staleness scenario: one tracked policy whose
facts were extracted from treeIdA, with a parser capability whose reparse
yields a tree with no matches at all. -/
def c2Workspace : IEF_Workspace :=
  { policies := [("/w/a.xml",
      { text := ⟨"<Pol PolicyId=\"A\"></Pol>"⟩, tree := treeIdA, id := "A", base_id := none })]
    parser := fun _ _ => some emptyTree }

/-- Policy whose stored facts declare base reference Y while its current
tree has no base-policy match any more. -/
def staleBPolicy : IEF_Policy :=
  { text := ⟨"<B></B>"⟩, tree := emptyTree, id := "B", base_id := some "Y" }

/-- Workspace containing only staleBPolicy; no policy declares Y. -/
def c3Workspace : IEF_Workspace :=
  { policies := [("/w/b.xml", staleBPolicy)], parser := fun _ _ => none }

/-- Tree for document B whose base-policy pattern has one match whose last
capture sits at row 2 column 16 with text Y. -/
def treeBaseY : Tree := ⟨[⟨[⟨2, 16, some "Y"⟩]⟩], []⟩

/-- Policy whose facts agree with treeBaseY: base reference Y, recorded by
the base-policy query of the current tree. -/
def freshBPolicy : IEF_Policy :=
  { text := ⟨"<B><BasePolicy><PolicyId>Y</PolicyId></BasePolicy></B>"⟩
    tree := treeBaseY, id := "B", base_id := some "Y" }

/-- Workspace containing only freshBPolicy; no policy declares Y. -/
def c3WitnessWorkspace : IEF_Workspace :=
  { policies := [("/w/b.xml", freshBPolicy)], parser := fun _ _ => none }

/-- Parser capability that always produces the empty tree. -/
def c5Parse : String → Option Tree → Option Tree := fun _ _ => some emptyTree

/-- Workspace holding the one document built by IEF_Policy.new from a text
that declares no identifier: the policy parses to a tree with no matches. -/
def c5Workspace : IEF_Workspace :=
  { policies := ((IEF_Policy.new c5Parse (some "<a></a>")).map
      (fun p => ("/w/noid.xml", p))).toList
    parser := c5Parse }

/-- Workspace tracking no document at all. -/
def emptyWorkspace : IEF_Workspace :=
  { policies := [], parser := fun _ _ => none }

/-- Two matches in document order with distinct decodable texts. -/
def c8Matches : List QMatch :=
  [⟨[⟨0, 4, some "alpha"⟩]⟩, ⟨[⟨5, 4, some "omega"⟩]⟩]

/-- Tree whose base-policy pattern has one match captured at row 3
column 7. -/
def c9Tree : Tree := ⟨[⟨[⟨3, 7, some "x"⟩]⟩], []⟩

/-- Parser capability for the no-identifier document. -/
def c10Parse : String → Option Tree → Option Tree := fun _ _ => some emptyTree

/-- The policy IEF_Policy.new builds from a text with no PolicyId: still
tracked, identifier stored as the empty string. -/
def c10Policy : IEF_Policy :=
  { text := ⟨"<a></a>"⟩, tree := emptyTree, id := "", base_id := none }

/-- Workspace tracking c10Policy. -/
def c10Workspace : IEF_Workspace :=
  { policies := [("/w/a.xml", c10Policy)], parser := c10Parse }

/-! Helper lemmas. -/

/-- Helper: find? over a list containing an element that satisfies the
predicate returns some element satisfying the predicate. -/
theorem find?_some_of_mem {α : Type} (p : α → Bool) {l : List α} {a : α}
    (ha : a ∈ l) (hpa : p a = true) :
    ∃ b, l.find? p = some b ∧ p b = true := by
  induction l with
  | nil => cases ha
  | cons x xs ih =>
    cases hx : p x with
    | true => exact ⟨x, by simp [List.find?_cons, hx], hx⟩
    | false =>
      rcases List.mem_cons.mp ha with h | h
      · rw [h] at hpa; rw [hx] at hpa; cases hpa
      · rcases ih h with ⟨b, hb, hpb⟩
        exact ⟨b, by simp [List.find?_cons, hx, hb], hpb⟩

/-! Claim theorems. -/

/-- Claim C1, refuted on the code at a concrete input: TextSync::edit with
the non-empty replacement XY over the non-zero-width byte span from 1 to 3
of abcdef only inserts at the start byte and keeps the old span, yielding
aXYbcdef, while the spec-modelled uniform replace of the span yields
aXYdef. -/
theorem c1_edit_nonempty_replacement_keeps_old_span :
    (TextSync.edit ⟨"abcdef"⟩ { range := ⟨⟨0, 1⟩, ⟨0, 3⟩⟩, new_text := "XY" }).raw_text
        = "aXYbcdef" ∧
    spec_apply "abcdef" 1 3 "XY" = "aXYdef" ∧
    ("aXYbcdef" : String) ≠ "aXYdef" := by
  refine ⟨rfl, rfl, ?_⟩
  decide

/-- Claim C2, refuted on the code at a concrete input: after handle_edit
reparses the document to a tree with no identifier match, the stored
facts still carry the pre-edit identifier A although re-running the
identifier query against the post-edit tree yields none; the facts are
left stale, never replaced in step four of the edit. -/
theorem c2_handle_edit_facts_stale :
    ((IEF_Workspace.handle_edit idTreeEdit c2Workspace "/w/a.xml"
        { range := ⟨⟨0, 5⟩, ⟨0, 20⟩⟩, new_text := "" }).1.policies.map
      (fun kv => (kv.2.id, id_query kv.2.tree)))
      = [("A", none)] ∧ (some "A" : Option String) ≠ none := by
  refine ⟨rfl, ?_⟩
  decide

/-- Claim C3 as amended: for every tracked policy whose facts declare a
base reference that no tracked policy declares as identifier, and whose
current tree still yields a base-policy range r, get_diagnostics contains
exactly one diagnostic for that document: severity Error, placed at r,
message naming the referenced identifier. -/
theorem c3_dangling_reference_one_error_diagnostic
    (w : IEF_Workspace) (path : String) (p : IEF_Policy) (base : String) (r : Range)
    (hmem : (path, p) ∈ w.policies)
    (hbase : p.base_id = some base)
    (hdangling : w.find_policy_by_id base = none)
    (hrange : base_policy_query_range p.tree = some r) :
    (to_uri path,
      [{ range := r
         severity := some DiagnosticSeverity.ERROR
         source := some "IEF_LSP"
         message := "Policy with ID " ++ base ++ " does not exist!" }])
      ∈ w.get_diagnostics := by
  unfold IEF_Workspace.get_diagnostics
  refine List.mem_filterMap.mpr ⟨(path, p), hmem, ?_⟩
  simp [hbase, hdangling, hrange]

/-- Witness for the amended claim C3 at a concrete workspace. -/
theorem c3_dangling_reference_one_error_diagnostic_witness :
    (to_uri "/w/b.xml",
      [{ range := ⟨⟨2, 16⟩, ⟨2, 16⟩⟩
         severity := some DiagnosticSeverity.ERROR
         source := some "IEF_LSP"
         message := "Policy with ID " ++ "Y" ++ " does not exist!" }])
      ∈ c3WitnessWorkspace.get_diagnostics :=
  c3_dangling_reference_one_error_diagnostic c3WitnessWorkspace "/w/b.xml" freshBPolicy
    "Y" ⟨⟨2, 16⟩, ⟨2, 16⟩⟩ (List.mem_cons_self _ _) rfl rfl rfl

/-- Counterexample to claim C3 as stated: a tracked policy whose stored
facts declare the dangling base reference Y gets no diagnostic at all
when the base-policy range query against its current tree comes back
empty. -/
theorem c3_stale_reference_no_diagnostic :
    c3Workspace.get_diagnostics = [] ∧
    staleBPolicy.base_id = some "Y" ∧
    c3Workspace.find_policy_by_id "Y" = none :=
  ⟨rfl, rfl, rfl⟩

/-- Claim C4, refuted on the code at the concrete input of the spec:
inserting the three-line text at position (2, 4) produces a delta whose
new-end line is 2 plus the line count 3, namely 5, while the spec-modelled
computation start line plus number of line breaks gives 4. -/
theorem c4_insertion_delta_line_off_by_one :
    (handle_edit_delta ⟨"l0\nl1\nl2 xxxx\nl3\nl4\nl5\n"⟩
        { range := ⟨⟨2, 4⟩, ⟨2, 4⟩⟩, new_text := "a\nb\nc" }).new_end_position.row = 5 ∧
    spec_new_end_line ⟨2, 4⟩ "a\nb\nc" = 4 ∧
    (5 : Nat) ≠ 4 := by
  refine ⟨rfl, rfl, ?_⟩
  decide

/-- Claim C5, refuted on the code at a concrete input: a document built by
IEF_Policy.new from a text declaring no identifier is tracked with the
empty identifier, yet get_diagnostics emits no diagnostic at all for it;
no missing-identifier rule exists in the source. -/
theorem c5_missing_identifier_yields_no_diagnostic :
    (c5Workspace.policies.map (fun kv => kv.2.id)) = [""] ∧
    c5Workspace.get_diagnostics = [] :=
  ⟨rfl, rfl⟩

/-- Claim C6, refuted on the code at a concrete input: the document abc
has exactly one line, yet byte_pos at line 5 silently returns the count 4
instead of failing; the embedded function is total and returns a plain
offset for every position. -/
theorem c6_byte_pos_silent_on_out_of_range_line :
    (TextSync.mk "abc").lines = 1 ∧
    (TextSync.mk "abc").byte_pos 5 0 = 4 :=
  ⟨rfl, rfl⟩

/-- Claim C7, refuted on the code at a concrete input: for a location
absent from the policy map, update_document returns success and leaves
the workspace unchanged, although the inner handle_edit reports the
document-not-found error that update_document discards. -/
theorem c7_update_document_ok_on_missing_document :
    (IEF_Workspace.update_document idTreeEdit emptyWorkspace "/w/missing.xml"
        [{ range := some ⟨⟨0, 0⟩, ⟨0, 0⟩⟩, text := "x" }]).2 = Except.ok () ∧
    (IEF_Workspace.update_document idTreeEdit emptyWorkspace "/w/missing.xml"
        [{ range := some ⟨⟨0, 0⟩, ⟨0, 0⟩⟩, text := "x" }]).1.policies = [] ∧
    (IEF_Workspace.handle_edit idTreeEdit emptyWorkspace "/w/missing.xml"
        { range := ⟨⟨0, 0⟩, ⟨0, 0⟩⟩, new_text := "x" }).2
      = Except.error ⟨"Document not found"⟩ :=
  ⟨rfl, rfl, rfl⟩

/-- Counterexample to claim C8 as stated: on two matches in document
order, IEFQuery.first returns the text of the first occurrence alpha,
not that of the last occurrence omega. -/
theorem c8_first_returns_first_not_last :
    (IEFQuery.first c8Matches).map (fun m => m.txt) = some "alpha" ∧
    ((c8Matches.getLast?.bind (fun m => m.captures.getLast?)).bind
        (fun c => c.utf8_text)) = some "omega" ∧
    (some "alpha" : Option String) ≠ some "omega" := by
  refine ⟨rfl, rfl, ?_⟩
  decide

/-- Claim C8 as amended, characterized in full: on no match IEFQuery.first
returns none; when the head match has a last capture whose text decodes,
the result is built from that first occurrence regardless of the rest;
when the head match has no capture, or its last capture fails to decode,
the head match is skipped and the result is that of the remaining matches
in document order. -/
theorem c8_first_match_in_document_order (m : QMatch) (rest : List QMatch) :
    IEFQuery.first [] = none ∧
    (∀ c s, m.captures.getLast? = some c → c.utf8_text = some s →
      IEFQuery.first (m :: rest) = some ⟨removeQuotes s, get_range c⟩) ∧
    (m.captures.getLast? = none →
      IEFQuery.first (m :: rest) = IEFQuery.first rest) ∧
    (∀ c, m.captures.getLast? = some c → c.utf8_text = none →
      IEFQuery.first (m :: rest) = IEFQuery.first rest) := by
  refine ⟨rfl, ?_, ?_, ?_⟩
  · intro c s hc hs
    unfold IEFQuery.first
    simp [List.filterMap_cons, hc, hs]
  · intro hc
    unfold IEFQuery.first
    simp [List.filterMap_cons, hc]
  · intro c hc hs
    unfold IEFQuery.first
    simp [List.filterMap_cons, hc, hs]

/-- Witness for the amended claim C8: every case of the characterization
exercised at a concrete match list — the empty list, a decodable head
returned as the first occurrence, a capture-less head skipped, and a head
whose capture fails to decode skipped. -/
theorem c8_first_match_in_document_order_witness :
    IEFQuery.first [] = none ∧
    IEFQuery.first c8Matches
        = some ⟨removeQuotes "alpha", get_range ⟨0, 4, some "alpha"⟩⟩ ∧
    IEFQuery.first (⟨[]⟩ :: c8Matches) = IEFQuery.first c8Matches ∧
    IEFQuery.first (⟨[⟨9, 9, none⟩]⟩ :: c8Matches) = IEFQuery.first c8Matches :=
  ⟨(c8_first_match_in_document_order ⟨[]⟩ []).1,
   (c8_first_match_in_document_order ⟨[⟨0, 4, some "alpha"⟩]⟩
      [⟨[⟨5, 4, some "omega"⟩]⟩]).2.1 ⟨0, 4, some "alpha"⟩ "alpha" rfl rfl,
   (c8_first_match_in_document_order ⟨[]⟩ c8Matches).2.2.1 rfl,
   (c8_first_match_in_document_order ⟨[⟨9, 9, none⟩]⟩ c8Matches).2.2.2
      ⟨9, 9, none⟩ rfl rfl⟩

/-- Claim C9: every range built by get_range is zero width, and so is
every range base_policy_query_range returns, both ends being the start
position of the captured node. -/
theorem c9_query_ranges_zero_width (node : TSNode) (tree : Tree) (r : Range)
    (h : base_policy_query_range tree = some r) :
    (get_range node).start = (get_range node).«end» ∧ r.start = r.«end» := by
  refine ⟨rfl, ?_⟩
  unfold base_policy_query_range at h
  have hmem := List.mem_of_mem_getLast? h
  rcases List.mem_map.mp hmem with ⟨n, _, hn⟩
  rw [← hn]

/-- Witness for claim C9 at a concrete node and tree. -/
theorem c9_query_ranges_zero_width_witness :
    (get_range ⟨0, 0, none⟩).start = (get_range ⟨0, 0, none⟩).«end» ∧
    (⟨⟨3, 7⟩, ⟨3, 7⟩⟩ : Range).start = (⟨⟨3, 7⟩, ⟨3, 7⟩⟩ : Range).«end» :=
  c9_query_ranges_zero_width ⟨0, 0, none⟩ c9Tree ⟨⟨3, 7⟩, ⟨3, 7⟩⟩ rfl

/-- Claim C10: a document whose tree yields no identifier match is still
tracked by IEF_Policy.new with the empty string as identifier, and in any
workspace holding such a policy the lookup by the empty identifier
resolves to a policy with the empty identifier, so an empty base
reference resolves successfully. -/
theorem c10_empty_identifier_tracked_and_resolvable
    (parse : String → Option Tree → Option Tree) (txt : String) (t : Tree) (p : IEF_Policy)
    (hparse : parse txt none = some t)
    (hnoid : id_query t = none)
    (hnew : IEF_Policy.new parse (some txt) = some p)
    (w : IEF_Workspace) (path : String) (hmem : (path, p) ∈ w.policies) :
    p.id = "" ∧ ∃ q, w.find_policy_by_id "" = some q ∧ q.id = "" := by
  have hp : p.id = "" := by
    unfold IEF_Policy.new at hnew
    simp only [hparse, hnoid, Option.getD_none, Option.some.injEq] at hnew
    rw [← hnew]
  have hmem2 : p ∈ w.policies.map Prod.snd := List.mem_map_of_mem Prod.snd hmem
  have hpa : (fun q : IEF_Policy => q.id == "") p = true := by
    simp [hp]
  rcases find?_some_of_mem (fun q : IEF_Policy => q.id == "") hmem2 hpa with ⟨q, hq, hq2⟩
  refine ⟨hp, q, hq, ?_⟩
  simpa using hq2

/-- Witness for claim C10 at a concrete workspace. -/
theorem c10_empty_identifier_tracked_and_resolvable_witness :
    c10Policy.id = "" ∧
    ∃ q, c10Workspace.find_policy_by_id "" = some q ∧ q.id = "" :=
  c10_empty_identifier_tracked_and_resolvable c10Parse "<a></a>" emptyTree c10Policy
    rfl rfl rfl c10Workspace "/w/a.xml" (List.mem_cons_self _ _)

end IEFLSP
